import Mathlib

/-!
# Verification of the Protostriker M engine core

A shallow embedding, in Lean 4, of the core of the Protostriker M
2-D shooter: the fixed-timestep game loop (`engine/system.py`), the
scrolling viewport (`engine/graphics.py`), the weapon rate limiter
(`weapons.py`), the collision resolver and spawn scheduler
(`sprite_manager.py`), the level parser (`sprite_manager.py`) and the
input-rebinding table (`engine/system.py`).  Python floats are embedded
as exact rationals (`ℚ`), Python ints as `ℤ`, Python lists as `List`.
-/

set_option autoImplicit false

namespace Protostriker

/-- The fixed timestep, `TIMESTEP = 1 / 60.0` in `engine/system.py`. -/
def TIMESTEP : ℚ := 1 / 60

/-- The frame-time clamp in `Game.run` (`engine/system.py`):
`if tick > 0.25: tick = 0.25`. -/
def clampTick (tick : ℚ) : ℚ := if tick > 1/4 then 1/4 else tick

/-- The catch-up loop of `Game.run` (`engine/system.py`):
`while self.accumulator >= TIMESTEP: current_state.update();
self.accumulator -= TIMESTEP`.  Returns the number of `update()` calls
made and the final accumulator. -/
def catchUp (acc : ℚ) : ℕ × ℚ :=
  if h : TIMESTEP ≤ acc then
    let r := catchUp (acc - TIMESTEP)
    (r.1 + 1, r.2)
  else
    (0, acc)
termination_by (⌊acc * 60⌋).toNat
decreasing_by
  have h1 : (1 : ℤ) ≤ ⌊acc * 60⌋ := by
    rw [Int.le_floor]
    push_cast
    rw [TIMESTEP] at h
    linarith
  have h2 : ⌊(acc - TIMESTEP) * 60⌋ = ⌊acc * 60⌋ - 1 := by
    have : (acc - TIMESTEP) * 60 = acc * 60 - (1 : ℤ) := by
      rw [TIMESTEP]; push_cast; ring
    rw [this, Int.floor_sub_int]
  omega

/-- The accumulator left by the catch-up loop is nonnegative (when it
started nonnegative) and strictly below `TIMESTEP`. -/
theorem catchUp_snd_bounds (acc : ℚ) (h : 0 ≤ acc) :
    0 ≤ (catchUp acc).2 ∧ (catchUp acc).2 < TIMESTEP := by
  induction acc using catchUp.induct with
  | case1 acc h' ih =>
    rw [catchUp, dif_pos h']
    exact ih (by rw [TIMESTEP] at h' ⊢; linarith)
  | case2 acc h' =>
    rw [catchUp, dif_neg h']
    exact ⟨h, lt_of_not_le h'⟩

/-- The catch-up loop loses no time: the updates performed plus the
remaining accumulator reconstruct the starting accumulator exactly. -/
theorem catchUp_reconstruct (acc : ℚ) :
    ((catchUp acc).1 : ℚ) * TIMESTEP + (catchUp acc).2 = acc := by
  induction acc using catchUp.induct with
  | case1 acc h' ih =>
    rw [catchUp, dif_pos h']
    push_cast
    push_cast at ih
    linarith
  | case2 acc h' =>
    rw [catchUp, dif_neg h']
    simp

/-- The number of updates performed by the catch-up loop is exactly
`⌊acc / TIMESTEP⌋`. -/
theorem catchUp_fst_eq_floor (acc : ℚ) (h : 0 ≤ acc) :
    ((catchUp acc).1 : ℤ) = ⌊acc / TIMESTEP⌋ := by
  have hT : (0:ℚ) < TIMESTEP := by rw [TIMESTEP]; norm_num
  have hrec := catchUp_reconstruct acc
  have hb := catchUp_snd_bounds acc h
  have hfloor : (⌊acc / TIMESTEP⌋ : ℤ) = ((catchUp acc).1 : ℤ) := by
    apply Int.floor_eq_iff.mpr
    constructor
    · push_cast
      rw [le_div_iff₀ hT]
      linarith [hb.1]
    · push_cast
      rw [div_lt_iff₀ hT]
      linarith [hb.2]
  exact hfloor.symm

/-- C1: in each iteration of `Game.run` the frame time is clamped to
at most `0.25` s and added to the accumulator; the catch-up loop then
performs exactly `⌊accumulator / TIMESTEP⌋` calls to `update()`, leaves
the accumulator holding exactly the remainder
`accumulator - ⌊accumulator / TIMESTEP⌋ * TIMESTEP` (i.e. `accumulator
mod TIMESTEP`; no time lost or duplicated), and the interpolation factor
`alpha = accumulator / TIMESTEP` computed afterwards lies in `[0, 1)`. -/
theorem run_iteration_fixed_timestep (acc tick : ℚ) (hacc : 0 ≤ acc) (htick : 0 ≤ tick) :
    clampTick tick ≤ 1/4 ∧
    ((catchUp (acc + clampTick tick)).1 : ℤ) = ⌊(acc + clampTick tick) / TIMESTEP⌋ ∧
    (catchUp (acc + clampTick tick)).2 =
      (acc + clampTick tick) - ⌊(acc + clampTick tick) / TIMESTEP⌋ * TIMESTEP ∧
    0 ≤ (catchUp (acc + clampTick tick)).2 / TIMESTEP ∧
    (catchUp (acc + clampTick tick)).2 / TIMESTEP < 1 := by
  have hT : (0:ℚ) < TIMESTEP := by rw [TIMESTEP]; norm_num
  have hclamp : 0 ≤ clampTick tick ∧ clampTick tick ≤ 1/4 := by
    rw [clampTick]
    split
    · norm_num
    · next h => exact ⟨htick, le_of_not_lt h⟩
  have hpos : 0 ≤ acc + clampTick tick := by linarith [hclamp.1]
  have hfst := catchUp_fst_eq_floor (acc + clampTick tick) hpos
  have hrec := catchUp_reconstruct (acc + clampTick tick)
  have hb := catchUp_snd_bounds (acc + clampTick tick) hpos
  refine ⟨hclamp.2, hfst, ?_, ?_, ?_⟩
  · have h2 : ((catchUp (acc + clampTick tick)).1 : ℚ)
        = (⌊(acc + clampTick tick) / TIMESTEP⌋ : ℚ) := by exact_mod_cast hfst
    rw [h2] at hrec
    linarith
  · exact div_nonneg hb.1 (le_of_lt hT)
  · rw [div_lt_one hT]
    exact hb.2

/-- Witness for `run_iteration_fixed_timestep` at `acc = 0`, `tick = 1/30`. -/
theorem run_iteration_fixed_timestep_witness :
    (0:ℚ) ≤ 0 ∧ (0:ℚ) ≤ 1/30 ∧
    (clampTick (1/30) ≤ 1/4 ∧
     ((catchUp ((0:ℚ) + clampTick (1/30))).1 : ℤ) = ⌊((0:ℚ) + clampTick (1/30)) / TIMESTEP⌋ ∧
     (catchUp ((0:ℚ) + clampTick (1/30))).2 =
       ((0:ℚ) + clampTick (1/30)) - ⌊((0:ℚ) + clampTick (1/30)) / TIMESTEP⌋ * TIMESTEP ∧
     0 ≤ (catchUp ((0:ℚ) + clampTick (1/30))).2 / TIMESTEP ∧
     (catchUp ((0:ℚ) + clampTick (1/30))).2 / TIMESTEP < 1) :=
  ⟨le_refl 0, by norm_num, run_iteration_fixed_timestep 0 (1/30) (le_refl 0) (by norm_num)⟩

/-! ## Scrolling viewport (`engine/graphics.py`, class `Viewport`) -/

/-- The state of `Viewport` (`engine/graphics.py`).  `last_level_pos` is
first assigned inside `update`; we carry it from creation with value 0. -/
structure Viewport where
  width : ℚ
  height : ℚ
  coordinate : ℚ
  last_coordinate : ℚ
  level_pos : ℚ
  last_level_pos : ℚ
  minScroll : ℚ
  maxScroll : ℚ
  advance_velocity : ℚ
deriving Repr, DecidableEq

/-- Constructor `Viewport.__init__` (`engine/graphics.py`): `width = 320`,
`height = 240`, `coordinate = 0`, `last_coordinate = 0`, `level_pos = 0`,
`minScroll = 0`, `maxScroll = background.get_width() - 320`,
`advance_velocity = 100`.  `bgWidth` is the background image width. -/
def Viewport.init (bgWidth : ℚ) : Viewport :=
  { width := 320, height := 240, coordinate := 0, last_coordinate := 0,
    level_pos := 0, last_level_pos := 0, minScroll := 0,
    maxScroll := bgWidth - 320, advance_velocity := 100 }

/-- Method `Viewport.update` (`engine/graphics.py`):
`last_coordinate = coordinate; last_level_pos = level_pos;
coordinate += advance_velocity * TIMESTEP;
level_pos += advance_velocity * TIMESTEP;
if coordinate > maxScroll: last_coordinate = 0; coordinate = 0`. -/
def Viewport.update (v : Viewport) : Viewport :=
  let v1 : Viewport :=
    { v with last_coordinate := v.coordinate,
             last_level_pos := v.level_pos,
             coordinate := v.coordinate + v.advance_velocity * TIMESTEP,
             level_pos := v.level_pos + v.advance_velocity * TIMESTEP }
  if v1.coordinate > v1.maxScroll then
    { v1 with last_coordinate := 0, coordinate := 0 }
  else
    v1

theorem viewport_update_maxScroll (v : Viewport) :
    (v.update).maxScroll = v.maxScroll := by
  rw [Viewport.update]
  split <;> rfl

theorem viewport_update_velocity (v : Viewport) :
    (v.update).advance_velocity = v.advance_velocity := by
  rw [Viewport.update]
  split <;> rfl

/-- One `update` keeps the coordinate inside `[0, maxScroll]` provided
the bounds are sane and it started there. -/
theorem viewport_update_coord_bounds (v : Viewport)
    (hmax : 0 ≤ v.maxScroll) (hvel : 0 ≤ v.advance_velocity)
    (h0 : 0 ≤ v.coordinate) :
    0 ≤ (v.update).coordinate ∧ (v.update).coordinate ≤ v.maxScroll := by
  have hT : (0:ℚ) ≤ TIMESTEP := by rw [TIMESTEP]; norm_num
  rw [Viewport.update]
  split
  · exact ⟨le_refl 0, hmax⟩
  · next h =>
    refine ⟨?_, le_of_not_lt h⟩
    have := mul_nonneg hvel hT
    simpa using add_nonneg h0 this

/-- C4: starting from a freshly created viewport over a background at
least 320 px wide, the scroll coordinate lies in `[0, maxScroll]` at the
start of every tick; and on any tick where the advanced coordinate would
exceed `maxScroll`, both `coordinate` and `last_coordinate` are reset to
0 in that same tick. -/
theorem viewport_coordinate_wrap (bgWidth : ℚ) (hbg : 320 ≤ bgWidth) :
    (∀ n : ℕ, 0 ≤ (Viewport.update^[n] (Viewport.init bgWidth)).coordinate ∧
        (Viewport.update^[n] (Viewport.init bgWidth)).coordinate ≤ bgWidth - 320) ∧
    (∀ v : Viewport,
        v.maxScroll < v.coordinate + v.advance_velocity * TIMESTEP →
        (v.update).coordinate = 0 ∧ (v.update).last_coordinate = 0) := by
  constructor
  · have key : ∀ n : ℕ,
        (Viewport.update^[n] (Viewport.init bgWidth)).maxScroll = bgWidth - 320 ∧
        (Viewport.update^[n] (Viewport.init bgWidth)).advance_velocity = 100 ∧
        0 ≤ (Viewport.update^[n] (Viewport.init bgWidth)).coordinate ∧
        (Viewport.update^[n] (Viewport.init bgWidth)).coordinate ≤ bgWidth - 320 := by
      intro n
      induction n with
      | zero =>
        refine ⟨rfl, rfl, le_refl 0, ?_⟩
        show (0:ℚ) ≤ bgWidth - 320
        linarith
      | succ n ih =>
        obtain ⟨hm, hv, h0, h1⟩ := ih
        have hb := viewport_update_coord_bounds
          (Viewport.update^[n] (Viewport.init bgWidth))
          (by rw [hm]; linarith) (by rw [hv]; norm_num) h0
        rw [hm] at hb
        rw [Function.iterate_succ_apply']
        exact ⟨by rw [viewport_update_maxScroll, hm],
               by rw [viewport_update_velocity, hv], hb.1, hb.2⟩
    intro n
    exact ⟨(key n).2.2.1, (key n).2.2.2⟩
  · intro v hwrap
    rw [Viewport.update]
    split
    · exact ⟨rfl, rfl⟩
    · next h => exact absurd hwrap h

/-- Witness for `viewport_coordinate_wrap` at `bgWidth = 640`,
specialised to tick `n = 3` and to a viewport about to wrap. -/
theorem viewport_coordinate_wrap_witness :
    (320:ℚ) ≤ 640 ∧
    (0 ≤ (Viewport.update^[3] (Viewport.init 640)).coordinate ∧
      (Viewport.update^[3] (Viewport.init 640)).coordinate ≤ 640 - 320) ∧
    ((Viewport.init 640).maxScroll <
        (Viewport.init 640).coordinate +
          (Viewport.init 640).advance_velocity * TIMESTEP →
      ((Viewport.init 640).update).coordinate = 0 ∧
      ((Viewport.init 640).update).last_coordinate = 0) :=
  ⟨by norm_num,
   (viewport_coordinate_wrap 640 (by norm_num)).1 3,
   fun h => (viewport_coordinate_wrap 640 (by norm_num)).2 (Viewport.init 640) h⟩

/-- C10: every `Viewport.update` call grows `level_pos` by exactly
`advance_velocity * TIMESTEP` — including on ticks where the scroll
coordinate wraps back to 0 — and from a fresh viewport `level_pos` is
strictly increasing across ticks (it is never reset). -/
theorem viewport_level_pos_monotone :
    (∀ v : Viewport,
        (v.update).level_pos = v.level_pos + v.advance_velocity * TIMESTEP) ∧
    (∀ (bgWidth : ℚ) (n : ℕ),
        (Viewport.update^[n] (Viewport.init bgWidth)).level_pos
          = n * (100 * TIMESTEP) ∧
        (Viewport.update^[n] (Viewport.init bgWidth)).level_pos <
          (Viewport.update^[n+1] (Viewport.init bgWidth)).level_pos) := by
  have hstep : ∀ v : Viewport,
      (v.update).level_pos = v.level_pos + v.advance_velocity * TIMESTEP := by
    intro v
    rw [Viewport.update]
    split <;> rfl
  refine ⟨hstep, ?_⟩
  intro bgWidth n
  have key : ∀ m : ℕ,
      (Viewport.update^[m] (Viewport.init bgWidth)).level_pos = m * (100 * TIMESTEP) ∧
      (Viewport.update^[m] (Viewport.init bgWidth)).advance_velocity = 100 := by
    intro m
    induction m with
    | zero => simp [Viewport.init]
    | succ m ih =>
      rw [Function.iterate_succ_apply', hstep, ih.1, ih.2,
          viewport_update_velocity, ih.2]
      constructor
      · push_cast; ring
      · rfl
  refine ⟨(key n).1, ?_⟩
  rw [(key n).1, (key (n+1)).1]
  have hT : (0:ℚ) < 100 * TIMESTEP := by rw [TIMESTEP]; norm_num
  have : ((n:ℚ)) < ((n:ℚ) + 1) := by linarith
  calc (n:ℚ) * (100 * TIMESTEP) < ((n:ℚ) + 1) * (100 * TIMESTEP) := by
        exact mul_lt_mul_of_pos_right this hT
    _ = ((n+1 : ℕ) : ℚ) * (100 * TIMESTEP) := by push_cast; ring

/-! ## Rectangles (pygame `Rect`) -/

/-- A pygame `Rect`: integer position and size. -/
structure Rect where
  x : ℤ
  y : ℤ
  w : ℤ
  h : ℤ
deriving Repr, DecidableEq

/-- Pygame `Rect.right`: `x + w`. -/
def Rect.right (r : Rect) : ℤ := r.x + r.w

/-- Pygame `Rect.centery`: `y + h / 2` (C integer division). -/
def Rect.centery (r : Rect) : ℤ := r.y + r.h / 2

/-- Pygame `Rect.colliderect`: true when the two rectangles properly
overlap (sharing only an edge does not count). -/
def Rect.colliderect (a b : Rect) : Bool :=
  a.x < b.x + b.w && a.x + a.w > b.x && a.y < b.y + b.h && a.y + a.h > b.y

/-! ## Weapons (`weapons.py`, class `BasicWeapon` and subclasses) -/

/-- A bullet as produced by `BasicWeapon.get_bullet` (`weapons.py`):
`bullets.BasicBullet(player_rect.right - 6, player_rect.centery, angle,
image)`.  We record the constructor arguments. -/
structure Bullet where
  x : ℤ
  y : ℤ
  angle : ℤ
deriving Repr, DecidableEq

/-- The mutable state of a weapon (`weapons.py`): the fire-rate cooldown
`speed` (ms), the time of the last shot `last_shot` (ms), and the list of
firing `angles`. -/
structure Weapon where
  speed : ℤ
  last_shot : ℤ
  angles : List ℤ
deriving Repr, DecidableEq

/-- Method `BasicWeapon.get_bullet` (`weapons.py`). -/
def Weapon.get_bullet (player_rect : Rect) (angle : ℤ) : Bullet :=
  { x := player_rect.right - 6, y := player_rect.centery, angle := angle }

/-- Result of one `fire` call: the returned shot list, the weapon state
afterwards, and how many times `self.sound.play()` was called. -/
structure FireResult where
  shots : List Bullet
  weapon : Weapon
  soundPlays : ℕ
deriving Repr, DecidableEq

/-- Method `BasicWeapon.fire(current_time, player_rect)` (`weapons.py`):
`if current_time - last_shot > speed: append get_bullet(...) for each
angle; sound.play(); last_shot = current_time; return shots`. -/
def Weapon.fire (w : Weapon) (current_time : ℤ) (player_rect : Rect) : FireResult :=
  if current_time - w.last_shot > w.speed then
    { shots := w.angles.map (Weapon.get_bullet player_rect),
      weapon := { w with last_shot := current_time },
      soundPlays := 1 }
  else
    { shots := [], weapon := w, soundPlays := 0 }

/-- C5: `fire(now, originRect)` is a pure rate limiter.  If
`now - last_shot ≤ speed` it returns the empty list, leaves the weapon
(including `last_shot`) unchanged and plays no sound; if
`now - last_shot > speed` it returns exactly one bullet per entry of the
angle list, plays the sound once, and sets `last_shot = now` leaving
`speed` and `angles` unchanged. -/
theorem weapon_fire_rate_limiter (w : Weapon) (now : ℤ) (r : Rect) :
    (now - w.last_shot ≤ w.speed →
      (w.fire now r).shots = [] ∧ (w.fire now r).weapon = w ∧
      (w.fire now r).soundPlays = 0) ∧
    (now - w.last_shot > w.speed →
      (w.fire now r).shots.length = w.angles.length ∧
      (w.fire now r).soundPlays = 1 ∧
      (w.fire now r).weapon.last_shot = now ∧
      (w.fire now r).weapon.speed = w.speed ∧
      (w.fire now r).weapon.angles = w.angles) := by
  constructor
  · intro h
    rw [Weapon.fire, if_neg (by omega)]
    exact ⟨rfl, rfl, rfl⟩
  · intro h
    rw [Weapon.fire, if_pos h]
    exact ⟨List.length_map _ _, rfl, rfl, rfl, rfl⟩

/-- Witness for `weapon_fire_rate_limiter`: the `BasicWeapon` data
(`speed = 380`, `angles = [0]`), fired too early at `now = 100` and then
successfully at `now = 500`. -/
theorem weapon_fire_rate_limiter_witness :
    ((100:ℤ) - (0:ℤ) ≤ 380 ∧
      ((Weapon.fire ⟨380, 0, [0]⟩ 100 ⟨10, 20, 32, 16⟩).shots = [] ∧
       (Weapon.fire ⟨380, 0, [0]⟩ 100 ⟨10, 20, 32, 16⟩).weapon = ⟨380, 0, [0]⟩ ∧
       (Weapon.fire ⟨380, 0, [0]⟩ 100 ⟨10, 20, 32, 16⟩).soundPlays = 0)) ∧
    ((500:ℤ) - (0:ℤ) > 380 ∧
      ((Weapon.fire ⟨380, 0, [0]⟩ 500 ⟨10, 20, 32, 16⟩).shots.length = ([0]:List ℤ).length ∧
       (Weapon.fire ⟨380, 0, [0]⟩ 500 ⟨10, 20, 32, 16⟩).soundPlays = 1 ∧
       (Weapon.fire ⟨380, 0, [0]⟩ 500 ⟨10, 20, 32, 16⟩).weapon.last_shot = 500 ∧
       (Weapon.fire ⟨380, 0, [0]⟩ 500 ⟨10, 20, 32, 16⟩).weapon.speed = 380 ∧
       (Weapon.fire ⟨380, 0, [0]⟩ 500 ⟨10, 20, 32, 16⟩).weapon.angles = [0])) :=
  ⟨⟨by norm_num,
    (weapon_fire_rate_limiter ⟨380, 0, [0]⟩ 100 ⟨10, 20, 32, 16⟩).1 (by norm_num)⟩,
   ⟨by norm_num,
    (weapon_fire_rate_limiter ⟨380, 0, [0]⟩ 500 ⟨10, 20, 32, 16⟩).2 (by norm_num)⟩⟩

/-! ## Interpolated drawing (`engine/system.py`, `Game.interpolate_draw`) -/

/-- The fields of `Game` that `interpolate_draw` reads: the pause flag
and the stored interpolation factor `alpha`. -/
structure GameDraw where
  paused : Bool
  alpha : ℚ
deriving Repr, DecidableEq

/-- Method `Game.interpolate_draw(current, last, boss_level)`
(`engine/system.py`): if not paused, `draw_pos = current * alpha + last *
(1.0 - alpha)`, overwritten by 0 when `boss_level`; if paused, return
`current`. -/
def interpolate_draw (g : GameDraw) (current last : ℚ) (boss_level : Bool) : ℚ :=
  if !g.paused then
    let draw_pos := current * g.alpha + last * (1 - g.alpha)
    if boss_level then 0 else draw_pos
  else
    current

/-- C7 counterexample: as stated, the claim says `interpolate_draw`
returns 0 whenever `boss_level` is true — but when the game is paused the
code returns `current` unmodified even on a boss level: with
`paused = true`, `boss_level = true`, `current = 5` the result is 5. -/
theorem interpolate_draw_paused_boss_counterexample :
    interpolate_draw ⟨true, 1/2⟩ 5 0 true = 5 ∧
    ¬ interpolate_draw ⟨true, 1/2⟩ 5 0 true = 0 := by
  constructor
  · rfl
  · intro h
    rw [interpolate_draw] at h
    norm_num at h

/-- C7 (amended): `interpolate_draw(current, last, boss_level)`
returns 0 when `boss_level` is true *and the game is not paused*;
returns `current * alpha + last * (1 - alpha)` when neither paused nor a
boss level; and returns `current` unmodified whenever the game is paused
(regardless of `boss_level`). -/
theorem interpolate_draw_cases (g : GameDraw) (current last : ℚ) (boss_level : Bool) :
    (g.paused = false → boss_level = true →
      interpolate_draw g current last boss_level = 0) ∧
    (g.paused = false → boss_level = false →
      interpolate_draw g current last boss_level
        = current * g.alpha + last * (1 - g.alpha)) ∧
    (g.paused = true → interpolate_draw g current last boss_level = current) := by
  refine ⟨?_, ?_, ?_⟩
  · intro hp hb
    rw [interpolate_draw, hp, hb]
    rfl
  · intro hp hb
    rw [interpolate_draw, hp, hb]
    rfl
  · intro hp
    rw [interpolate_draw, hp]
    rfl

/-- Witness for `interpolate_draw_cases` at concrete inputs covering all
three cases. -/
theorem interpolate_draw_cases_witness :
    interpolate_draw ⟨false, 1/4⟩ 8 4 true = 0 ∧
    interpolate_draw ⟨false, 1/4⟩ 8 4 false = 8 * (1/4) + 4 * (1 - 1/4) ∧
    interpolate_draw ⟨true, 1/4⟩ 8 4 false = 8 :=
  ⟨(interpolate_draw_cases ⟨false, 1/4⟩ 8 4 true).1 rfl rfl,
   (interpolate_draw_cases ⟨false, 1/4⟩ 8 4 false).2.1 rfl rfl,
   (interpolate_draw_cases ⟨true, 1/4⟩ 8 4 false).2.2 rfl⟩

/-! ## Input rebinding (`engine/system.py`, class `InputManager`) -/

/-- A physical binding value as stored in `InputManager.set` /
`user_bound`: a pygame key or gamepad button constant (int), a hat
direction (string), or an axis combination (pair of ints). -/
inductive PyVal where
  | int (n : ℤ)
  | str (s : String)
  | pair (a b : ℤ)
deriving Repr, DecidableEq

/-- The ten logical buttons of the binding tables. -/
inductive Button where
  | RIGHT | LEFT | UP | DOWN | SELECT | START | B | A | Y | X
deriving Repr, DecidableEq

/-- The four diagonal axis combinations pre-seeded into
`InputManager.set` by `__init__` (`engine/system.py`):
`[(-1, 1), (1, 1), (1, -1), (-1, -1)]`. -/
def diagonals : List PyVal :=
  [.pair (-1) 1, .pair 1 1, .pair 1 (-1), .pair (-1) (-1)]

/-- The parts of `InputManager` state that `redefine_button` touches:
the used-binding list `set` and the user binding table `user_bound`. -/
structure InputManager where
  used : List PyVal
  user_bound : Button → List PyVal

/-- Constructor `InputManager.__init__` (`engine/system.py`): `self.set = [(-1, 1),
(1, 1), (1, -1), (-1, -1)]`, every `user_bound` list empty. -/
def InputManager.initial : InputManager :=
  { used := diagonals, user_bound := fun _ => [] }

/-- Method `InputManager.redefine_button(button, new_value)`
(`engine/system.py`): if `new_value not in self.set`, append it to
`user_bound[button]` and to `set` and return `True`; otherwise return
`False` changing nothing. -/
def InputManager.redefine_button (m : InputManager) (button : Button)
    (new_value : PyVal) : Bool × InputManager :=
  if new_value ∉ m.used then
    (true,
     { used := m.used ++ [new_value],
       user_bound := fun b =>
         if b = button then m.user_bound b ++ [new_value] else m.user_bound b })
  else
    (false, m)

/-- Applying a sequence of `redefine_button` calls, keeping only the
final manager state. -/
def InputManager.applyOps (m : InputManager) (ops : List (Button × PyVal)) : InputManager :=
  ops.foldl (fun m op => (m.redefine_button op.1 op.2).2) m

/-- Any value in the used-binding list stays there across a
`redefine_button` call. -/
theorem redefine_button_used_mono (m : InputManager) (b : Button)
    (v d : PyVal) (hd : d ∈ m.used) :
    d ∈ ((m.redefine_button b v).2).used := by
  rw [InputManager.redefine_button]
  split
  · exact List.mem_append_left _ hd
  · exact hd

/-- C8: `redefine_button(button, new_value)` refuses a value already
in the used-binding list (returns `false` and changes nothing) and
otherwise returns `true`, appending the value to the button's user
binding list and to the used list.  The used list initially holds
exactly the four diagonal axis combinations, and after any sequence of
rebinding calls a diagonal is still refused — diagonals can never be
rebound. -/
theorem redefine_button_spec (m : InputManager) (b : Button) (v : PyVal) :
    (v ∈ m.used → (m.redefine_button b v).1 = false ∧ (m.redefine_button b v).2 = m) ∧
    (v ∉ m.used →
      (m.redefine_button b v).1 = true ∧
      ((m.redefine_button b v).2).used = m.used ++ [v] ∧
      ((m.redefine_button b v).2).user_bound b = m.user_bound b ++ [v] ∧
      ∀ b' : Button, b' ≠ b →
        ((m.redefine_button b v).2).user_bound b' = m.user_bound b') ∧
    InputManager.initial.used = diagonals ∧
    (∀ (ops : List (Button × PyVal)) (d : PyVal), d ∈ diagonals →
      ((InputManager.applyOps InputManager.initial ops).redefine_button b d).1 = false) := by
  refine ⟨?_, ?_, rfl, ?_⟩
  · intro hv
    rw [InputManager.redefine_button, if_neg (by simpa using hv)]
    exact ⟨rfl, rfl⟩
  · intro hv
    rw [InputManager.redefine_button, if_pos hv]
    refine ⟨rfl, rfl, by simp, ?_⟩
    intro b' hb'
    simp [hb']
  · intro ops d hd
    have hmem : ∀ (m' : InputManager), d ∈ m'.used →
        d ∈ (InputManager.applyOps m' ops).used := by
      induction ops with
      | nil => intro m' h; exact h
      | cons op rest ih =>
        intro m' h
        exact ih _ (redefine_button_used_mono m' op.1 op.2 d h)
    have hd' : d ∈ (InputManager.applyOps InputManager.initial ops).used :=
      hmem InputManager.initial hd
    rw [InputManager.redefine_button, if_neg (by simpa using hd')]

/-- Witness for `redefine_button_spec`: from the initial manager,
rebinding key 122 to button `B` succeeds, a diagonal is refused, and
after the successful rebinding the diagonal is still refused. -/
theorem redefine_button_spec_witness :
    (PyVal.pair 1 1 ∈ InputManager.initial.used ∧
      (InputManager.initial.redefine_button .B (.pair 1 1)).1 = false ∧
      (InputManager.initial.redefine_button .B (.pair 1 1)).2 = InputManager.initial) ∧
    (PyVal.int 122 ∉ InputManager.initial.used ∧
      (InputManager.initial.redefine_button .B (.int 122)).1 = true) ∧
    ((InputManager.applyOps InputManager.initial
        [(.B, .int 122)]).redefine_button .B (.pair 1 1)).1 = false :=
  ⟨⟨by decide,
    (redefine_button_spec InputManager.initial .B (.pair 1 1)).1 (by decide)⟩,
   ⟨by decide,
    ((redefine_button_spec InputManager.initial .B (.int 122)).2.1 (by decide)).1⟩,
   (redefine_button_spec (InputManager.applyOps InputManager.initial [(.B, .int 122)])
      .B (.pair 1 1)).2.2.2 [(.B, .int 122)] (.pair 1 1) (by decide)⟩

/-! ## State lifecycle and input freezing during transitions
(`engine/system.py`, classes `State` and `Game`) -/

/-- The lifecycle flags of `State` (`engine/system.py`). -/
structure SState where
  transitioning : Bool
  is_exiting : Bool
  done_exiting : Bool
deriving Repr, DecidableEq

/-- Method `State.update` (`engine/system.py`): `if self.transitioning:
self.transitioning = self.transition.update(ticks)`; then `if not
self.transitioning and self.is_exiting: self.done_exiting = True`.  The
Boolean returned by the external transition animation object's
`update()` is passed in as `stillActive`. -/
def SState.update (s : SState) (stillActive : Bool) : SState :=
  let t := if s.transitioning then stillActive else s.transitioning
  let d := if !t && s.is_exiting then true else s.done_exiting
  { transitioning := t, is_exiting := s.is_exiting, done_exiting := d }

/-- Iterated `State.update`, `n` successive calls; `f i` is the value the
transition object returns on the `i`-th call. -/
def applyUpdates : SState → (ℕ → Bool) → ℕ → SState
  | s, _, 0 => s
  | s, f, n+1 => applyUpdates (s.update (f 0)) (fun i => f (i+1)) n

/-- What one `Game.run` iteration (`engine/system.py`) does to the
current state: `handle_input` is called only when the state is not
transitioning (`if not current_state.transitioning:
current_state.handle_input()`), and `update` is called once per
`TIMESTEP` of accumulated time. -/
structure IterResult where
  handled_input : Bool
  update_calls : ℕ
  state : SState
  accumulator : ℚ
  alpha : ℚ

/-- One iteration of `Game.run` (`engine/system.py`), restricted to the
input gate and the catch-up update loop acting on the current state. -/
def runIteration (s : SState) (acc tick : ℚ) (f : ℕ → Bool) : IterResult :=
  let acc1 := acc + clampTick tick
  { handled_input := !s.transitioning,
    update_calls := (catchUp acc1).1,
    state := applyUpdates s f (catchUp acc1).1,
    accumulator := (catchUp acc1).2,
    alpha := (catchUp acc1).2 / TIMESTEP }

/-- C9: while the current state's transition is active, its
`handle_input` is never called in a loop iteration; its `update` calls
still happen on the normal catch-up schedule (the number of calls does
not depend on the transitioning flag) and progress the transition (the
flag takes the transition's `update()` result); and once the transition
is finished while the state `is_exiting`, `update` sets `done_exiting`. -/
theorem transitioning_state_input_frozen :
    (∀ (s : SState) (acc tick : ℚ) (f : ℕ → Bool),
      s.transitioning = true → (runIteration s acc tick f).handled_input = false) ∧
    (∀ (s : SState) (acc tick : ℚ) (f : ℕ → Bool) (b : Bool),
      (runIteration s acc tick f).update_calls
        = (runIteration { s with transitioning := b } acc tick f).update_calls) ∧
    (∀ (s : SState) (b : Bool),
      s.transitioning = true → (s.update b).transitioning = b) ∧
    (∀ (s : SState) (b : Bool), s.is_exiting = true →
      ((s.transitioning = true → b = false → (s.update b).done_exiting = true) ∧
       (s.transitioning = false → (s.update b).done_exiting = true))) := by
  refine ⟨?_, ?_, ?_, ?_⟩
  · intro s acc tick f ht
    rw [runIteration]
    simp [ht]
  · intro s acc tick f b
    rfl
  · intro s b ht
    rw [SState.update]
    simp [ht]
  · intro s b he
    constructor
    · intro ht hb
      rw [SState.update]
      simp [ht, hb, he]
    · intro ht
      rw [SState.update]
      simp [ht, he]

/-- Witness for `transitioning_state_input_frozen` at a concrete
transitioning, exiting state. -/
theorem transitioning_state_input_frozen_witness :
    (runIteration ⟨true, true, false⟩ 0 (1/30) (fun _ => false)).handled_input = false ∧
    (runIteration ⟨true, true, false⟩ 0 (1/30) (fun _ => false)).update_calls
      = (runIteration ⟨false, true, false⟩ 0 (1/30) (fun _ => false)).update_calls ∧
    ((⟨true, true, false⟩ : SState).update false).transitioning = false ∧
    ((⟨true, true, false⟩ : SState).update false).done_exiting = true :=
  ⟨transitioning_state_input_frozen.1 ⟨true, true, false⟩ 0 (1/30) (fun _ => false) rfl,
   transitioning_state_input_frozen.2.1 ⟨true, true, false⟩ 0 (1/30) (fun _ => false) false,
   transitioning_state_input_frozen.2.2.1 ⟨true, true, false⟩ false rfl,
   (transitioning_state_input_frozen.2.2.2 ⟨true, true, false⟩ false rfl).1 rfl rfl⟩

/-! ## Spawn scheduler (`sprite_manager.py`, `SpriteManager.update`) -/

/-- An entry of `SpriteManager.enemy_queue`: `boss` marks
`enemies.Boss` instances, `dx` is the enemy's trigger x-coordinate.
`tag` stands for Python object identity: queue entries are distinct
objects, so `list.remove(enemy)` / `list.index(enemy)` in the source act
on exactly the element yielded at the loop's current position. -/
structure SpawnRecord where
  boss : Bool
  dx : ℚ
  tag : ℕ
deriving Repr, DecidableEq

/-- The spawn guard of `SpriteManager.update` (`sprite_manager.py`):
`isinstance(enemy, enemies.Boss)` or `viewport.level_pos +
viewport.width >= enemy.dx`. -/
def spawnTrigger (level_pos width : ℚ) (e : SpawnRecord) : Bool :=
  e.boss || decide (level_pos + width ≥ e.dx)

/-- The enemy-spawn loop of `SpriteManager.update` (`sprite_manager.py`):
`for enemy in self.enemy_queue: if <boss>: remove, spawn, add; elif
<triggered>: pop, spawn, add`.  The Python `for` iterates the very list
it removes from: the loop counter advances every iteration, so after a
removal at the current position the list shifts left and the element
that followed the removed one is never yielded in this sweep.
`spawnSweep trig kept rest` models the loop with `rest` the elements
from the counter position on and `kept` the already-passed elements that
stayed in the queue; it returns the queue after the sweep and the
spawned records in spawn order. -/
def spawnSweep (trig : SpawnRecord → Bool) (kept : List SpawnRecord) :
    List SpawnRecord → List SpawnRecord × List SpawnRecord
  | [] => (kept, [])
  | e :: rest =>
    if trig e then
      match rest with
      | [] => (kept, [e])
      | f :: rest' =>
        let r := spawnSweep trig (kept ++ [f]) rest'
        (r.1, e :: r.2)
    else
      spawnSweep trig (kept ++ [e]) rest

/-- One simulation tick of the spawn scheduler over the whole queue. -/
def spawnTick (level_pos width : ℚ) (q : List SpawnRecord) :
    List SpawnRecord × List SpawnRecord :=
  spawnSweep (spawnTrigger level_pos width) [] q

/-- C3 (failing input): with `level_pos = 0`, `width = 320` and the
queue holding two adjacent non-boss records with triggers 50 and 60 —
both conditions hold — only the first record spawns this tick; the
second stays in the queue even though this is the first tick on which
its condition holds.  Likewise a boss record immediately following a
spawned record is skipped for the sweep, so it does not spawn on its
scheduling signal. -/
theorem spawn_skips_record_after_removal :
    spawnTrigger 0 320 ⟨false, 60, 1⟩ = true ∧
    spawnTick 0 320 [⟨false, 50, 0⟩, ⟨false, 60, 1⟩]
      = ([⟨false, 60, 1⟩], [⟨false, 50, 0⟩]) ∧
    spawnTick 0 320 [⟨false, 50, 0⟩, ⟨true, 1000, 1⟩]
      = ([⟨true, 1000, 1⟩], [⟨false, 50, 0⟩]) := by
  refine ⟨?_, ?_, ?_⟩ <;>
    simp [spawnTick, spawnSweep, spawnTrigger] <;> norm_num

theorem spawnSweep_cons_neg (trig : SpawnRecord → Bool)
    (kept : List SpawnRecord) (e : SpawnRecord) (rest : List SpawnRecord)
    (h : trig e = false) :
    spawnSweep trig kept (e :: rest) = spawnSweep trig (kept ++ [e]) rest := by
  cases rest <;> simp [spawnSweep, h]

theorem spawnSweep_cons_pos_cons (trig : SpawnRecord → Bool)
    (kept : List SpawnRecord) (e f : SpawnRecord) (rest : List SpawnRecord)
    (h : trig e = true) :
    spawnSweep trig kept (e :: f :: rest)
      = ((spawnSweep trig (kept ++ [f]) rest).1,
         e :: (spawnSweep trig (kept ++ [f]) rest).2) := by
  simp [spawnSweep, h]

/-- The facts of C3 that do hold of a sweep: it only partitions the
queue (no record is duplicated or lost, so a spawned record is removed
from the queue and spawns at most once), every spawned record came from
the swept queue with its guard true, records already passed stay in the
queue, and a record whose guard is false is never spawned — it stays in
the queue. -/
theorem spawnSweep_partition (trig : SpawnRecord → Bool)
    (kept rest : List SpawnRecord) :
    (spawnSweep trig kept rest).1.length + (spawnSweep trig kept rest).2.length
        = kept.length + rest.length ∧
    (∀ e ∈ (spawnSweep trig kept rest).2, e ∈ rest ∧ trig e = true) ∧
    (∀ x ∈ kept, x ∈ (spawnSweep trig kept rest).1) ∧
    (∀ e ∈ rest, trig e = false → e ∈ (spawnSweep trig kept rest).1) := by
  induction kept, rest using spawnSweep.induct trig with
  | case1 kept' => simp [spawnSweep]
  | case2 kept' e h => simp_all [spawnSweep]
  | case3 kept' e h f rest'' ih =>
    rw [spawnSweep_cons_pos_cons trig kept' e f rest'' h]
    dsimp only
    obtain ⟨iha, ihb, ihc, ihd⟩ := ih
    refine ⟨?_, ?_, ?_, ?_⟩
    · simp only [List.length_cons]
      simp [List.length_append] at iha
      omega
    · intro x hx
      simp only [List.mem_cons] at hx
      rcases hx with hx | hx
      · exact ⟨by rw [hx]; exact List.mem_cons_self _ _, by rwa [hx]⟩
      · obtain ⟨h1, h2⟩ := ihb x hx
        exact ⟨List.mem_cons_of_mem _ (List.mem_cons_of_mem _ h1), h2⟩
    · intro x hx
      exact ihc x (List.mem_append_left _ hx)
    · intro x hx hfalse
      simp only [List.mem_cons] at hx
      rcases hx with hx | hx | hx
      · rw [hx] at hfalse; rw [hfalse] at h; cases h
      · exact ihc x (by rw [hx]; exact List.mem_append_right _ (List.mem_singleton_self _))
      · exact ihd x hx hfalse
  | case4 kept' e rest' h ih =>
    rw [spawnSweep_cons_neg trig kept' e rest' (by simpa using h)]
    obtain ⟨iha, ihb, ihc, ihd⟩ := ih
    refine ⟨?_, ?_, ?_, ?_⟩
    · simp only [List.length_cons]
      simp [List.length_append] at iha
      omega
    · intro x hx
      obtain ⟨h1, h2⟩ := ihb x hx
      exact ⟨List.mem_cons_of_mem _ h1, h2⟩
    · intro x hx
      exact ihc x (List.mem_append_left _ hx)
    · intro x hx hfalse
      simp only [List.mem_cons] at hx
      rcases hx with hx | hx
      · exact ihc x (by rw [hx]; exact List.mem_append_right _ (List.mem_singleton_self _))
      · exact ihd x hx hfalse

/-! ## Collision resolver (`sprite_manager.py`, `SpriteManager.check_collisions`) -/

/-- An enemy as `check_collisions` sees it: its hitbox rectangles, the
remaining hit counter `hits`, group membership `alive`, and score value
`points`.  (The concrete enemy classes live in `enemies.py`, which is
not among the sources; the spec's data model gives these fields.) -/
structure GEnemy where
  hitbox : List Rect
  hits : ℤ
  alive : Bool
  points : ℤ
deriving Repr, DecidableEq

/-- Modelled from the spec: `Enemy.hit(damage)` (`enemies.py`, not among
the sources) — "an enemy with `hits = N` requires exactly N non-beam
hits (or N/2 beam hits ...) to die": each hit decrements the remaining
hit counter by the damage dealt. -/
def GEnemy.hit (e : GEnemy) (damage : ℤ) : GEnemy :=
  { e with hits := e.hits - damage }

/-- Modelled from the spec: `Enemy.explode()` (`enemies.py`, not among
the sources) — the enemy dies: it is removed from its group, producing
explosion sprites and an optional powerup (handled separately by the
caller). -/
def GEnemy.explode (e : GEnemy) : GEnemy :=
  { e with alive := false }

/-- A player bullet as `check_collisions` sees it: its hitbox, the
`destroyable` flag (false for the laser beam), and group membership
`alive` (`kill()` clears it). -/
structure GBullet where
  hitbox : Rect
  destroyable : Bool
  alive : Bool
deriving Repr, DecidableEq

/-- The body of the player-shot collision check in
`SpriteManager.check_collisions` (`sprite_manager.py`) for one bullet
and one enemy hitbox `box`: if they overlap and `enemy.hits > 0`, damage
is 1 for a destroyable bullet and 2 otherwise, the bullet is killed
unconditionally, and the enemy is hit (for 0 damage on a boss level when
the box is not the width-7 hurtbox); if they overlap and
`enemy.hits ≤ 0`, the bullet is killed only when destroyable, the enemy
explodes, and the player's score grows by `enemy.points`. -/
def resolveHit (boss_level : Bool) (e : GEnemy) (b : GBullet) (box : Rect)
    (score : ℤ) : GEnemy × GBullet × ℤ :=
  if b.hitbox.colliderect box then
    if e.hits > 0 then
      let damage : ℤ := if b.destroyable then 1 else 2
      let b' := { b with alive := false }
      let e' :=
        if boss_level then
          if box.w ≠ 7 then e.hit 0 else e.hit damage
        else
          e.hit damage
      (e', b', score)
    else
      let b' := if b.destroyable then { b with alive := false } else b
      (e.explode, b', score + e.points)
  else
    (e, b, score)

/-- The `for box in enemy.hitbox` loop of `check_collisions` for one
bullet: every box of the enemy is checked in order, even after the
bullet has been killed (the box list is a snapshot). -/
def hitBoxes (boss_level : Bool) : List Rect → GEnemy × GBullet × ℤ → GEnemy × GBullet × ℤ
  | [], r => r
  | box :: rest, (e, b, sc) => hitBoxes boss_level rest (resolveHit boss_level e b box sc)

/-- The enemy loop of `check_collisions` restricted to a single player
bullet: for each enemy, `self.sprites['player_shots']` is re-evaluated
(pygame group iteration snapshots the group), so a bullet killed at an
earlier enemy is skipped for all later enemies but still finishes the
current enemy's box list.  Returns the bullet, the enemies after the
sweep, and the player score. -/
def bulletSweep (boss_level : Bool) (b : GBullet) (score : ℤ) :
    List GEnemy → GBullet × List GEnemy × ℤ
  | [] => (b, [], score)
  | e :: es =>
    if b.alive then
      let r := hitBoxes boss_level e.hitbox (e, b, score)
      let rest := bulletSweep boss_level r.2.1 r.2.2 es
      (rest.1, r.1 :: rest.2.1, rest.2.2)
    else
      (b, e :: es, score)

theorem bulletSweep_cons (boss_level : Bool) (b : GBullet) (sc : ℤ)
    (e : GEnemy) (es : List GEnemy) (halive : b.alive = true) :
    bulletSweep boss_level b sc (e :: es)
      = ((bulletSweep boss_level
            (hitBoxes boss_level e.hitbox (e, b, sc)).2.1
            (hitBoxes boss_level e.hitbox (e, b, sc)).2.2 es).1,
         (hitBoxes boss_level e.hitbox (e, b, sc)).1 ::
           (bulletSweep boss_level
            (hitBoxes boss_level e.hitbox (e, b, sc)).2.1
            (hitBoxes boss_level e.hitbox (e, b, sc)).2.2 es).2.1,
         (bulletSweep boss_level
            (hitBoxes boss_level e.hitbox (e, b, sc)).2.1
            (hitBoxes boss_level e.hitbox (e, b, sc)).2.2 es).2.2) := by
  rw [bulletSweep]
  rw [if_pos halive]

/-- A live beam meeting an enemy with an exhausted hit counter through a
single overlapping hitbox explodes it and survives unchanged. -/
theorem beam_single_box_step (boss_level : Bool) (b : GBullet)
    (hdes : b.destroyable = false) (e : GEnemy) (bx : Rect) (sc : ℤ)
    (hhits : e.hits ≤ 0) (hbox : e.hitbox = [bx])
    (hbxcol : b.hitbox.colliderect bx = true) :
    hitBoxes boss_level e.hitbox (e, b, sc) = (e.explode, b, sc + e.points) := by
  rw [hbox, hitBoxes, resolveHit, if_pos hbxcol, if_neg (by omega), hdes]
  rw [hitBoxes]
  simp

/-- A live beam sweeping a queue of enemies that all have exhausted hit
counters and a single overlapping hitbox survives the whole sweep and
explodes every one of them. -/
theorem beam_sweep_explodes_all (boss_level : Bool) (b : GBullet)
    (hdes : b.destroyable = false) (halive : b.alive = true) :
    ∀ (es : List GEnemy) (sc : ℤ),
      (∀ p ∈ es, p.hits ≤ 0 ∧ ∃ bx, p.hitbox = [bx] ∧
          b.hitbox.colliderect bx = true) →
      (bulletSweep boss_level b sc es).1 = b ∧
      (∀ p ∈ (bulletSweep boss_level b sc es).2.1, p.alive = false) := by
  intro es
  induction es with
  | nil =>
    intro sc _
    exact ⟨rfl, fun p hp => absurd hp (List.not_mem_nil p)⟩
  | cons p ps ih =>
    intro sc hall
    obtain ⟨hhits, bx, hbox, hbxcol⟩ := hall p (List.mem_cons_self _ _)
    rw [bulletSweep_cons boss_level b sc p ps halive,
        beam_single_box_step boss_level b hdes p bx sc hhits hbox hbxcol]
    dsimp only
    have ihps := ih (sc + p.points) (fun q hq => hall q (List.mem_cons_of_mem _ hq))
    refine ⟨ihps.1, ?_⟩
    intro q hq
    simp only [List.mem_cons] at hq
    rcases hq with hq | hq
    · rw [hq]; rfl
    · exact ihps.2 q hq

/-- C2 counterexample: a non-destroyable (beam) bullet overlapping
the hitbox of an enemy whose remaining hit counter is positive *is*
consumed — `bullet.kill()` runs unconditionally in the `hits > 0` branch
— contradicting the claim that a beam is never consumed by a hit. -/
theorem beam_consumed_on_hit_counterexample :
    (⟨⟨4, 4, 4, 4⟩, false, true⟩ : GBullet).destroyable = false ∧
    Rect.colliderect ⟨4, 4, 4, 4⟩ ⟨0, 0, 16, 16⟩ = true ∧
    (resolveHit false ⟨[⟨0, 0, 16, 16⟩], 2, true, 100⟩
        ⟨⟨4, 4, 4, 4⟩, false, true⟩ ⟨0, 0, 16, 16⟩ 0).2.1.alive = false := by
  refine ⟨rfl, by decide, by decide⟩

/-- C2 (amended): for a player bullet overlapping an enemy hitbox:
a destroyable bullet is always consumed; a non-destroyable (beam) bullet
is consumed when the enemy's remaining hit counter is positive, and
passes through (keeps its `alive` status) when the counter is already
zero or less — in which case the enemy explodes, the score grows by its
points, and the beam can go on to damage further enemies in the same
sweep; damage per hit is 1 for a destroyable bullet and 2 for a beam
(applied off a boss level; on a boss level only through the width-7
hurtbox, 0 elsewhere). -/
theorem bullet_hit_consumption (boss_level : Bool) (e : GEnemy) (b : GBullet)
    (box : Rect) (sc : ℤ) (hcol : b.hitbox.colliderect box = true) :
    (e.hits > 0 →
      (resolveHit boss_level e b box sc).2.1.alive = false ∧
      (boss_level = false →
        (resolveHit boss_level e b box sc).1.hits
          = e.hits - (if b.destroyable then 1 else 2)) ∧
      (boss_level = true → box.w = 7 →
        (resolveHit boss_level e b box sc).1.hits
          = e.hits - (if b.destroyable then 1 else 2)) ∧
      (boss_level = true → box.w ≠ 7 →
        (resolveHit boss_level e b box sc).1.hits = e.hits)) ∧
    (e.hits ≤ 0 →
      (b.destroyable = true → (resolveHit boss_level e b box sc).2.1.alive = false) ∧
      (b.destroyable = false → (resolveHit boss_level e b box sc).2.1 = b) ∧
      (resolveHit boss_level e b box sc).1.alive = false ∧
      (resolveHit boss_level e b box sc).2.2 = sc + e.points) ∧
    (b.destroyable = false → b.alive = true →
      ∀ es : List GEnemy,
        (∀ p ∈ es, p.hits ≤ 0 ∧ ∃ bx, p.hitbox = [bx] ∧
            b.hitbox.colliderect bx = true) →
        (bulletSweep boss_level b sc es).1 = b ∧
        (∀ p ∈ (bulletSweep boss_level b sc es).2.1, p.alive = false)) := by
  refine ⟨?_, ?_, ?_⟩
  · intro hpos
    rw [resolveHit, if_pos hcol, if_pos hpos]
    refine ⟨rfl, ?_, ?_, ?_⟩
    · intro hb; rw [hb]; simp [GEnemy.hit]
    · intro hb h7; rw [hb]; simp [GEnemy.hit, h7]
    · intro hb h7; rw [hb]; simp [GEnemy.hit, h7]
  · intro hnonpos
    rw [resolveHit, if_pos hcol, if_neg (by omega)]
    refine ⟨?_, ?_, rfl, rfl⟩
    · intro hd; rw [hd]; simp
    · intro hd; rw [hd]; simp
  · intro hdes halive es hall
    exact beam_sweep_explodes_all boss_level b hdes halive es sc hall

/-- Witness for `bullet_hit_consumption`: a beam bullet against an
enemy with 2 hits left (consumed, −2 damage), a destroyable-free hit on
an exhausted enemy (passes through, enemy explodes, score credited), and
a sweep over two exhausted enemies (both explode, beam survives). -/
theorem bullet_hit_consumption_witness :
    (resolveHit false ⟨[⟨0, 0, 16, 16⟩], 2, true, 100⟩
        ⟨⟨4, 4, 4, 4⟩, false, true⟩ ⟨0, 0, 16, 16⟩ 0).2.1.alive = false ∧
    (resolveHit false ⟨[⟨0, 0, 16, 16⟩], 2, true, 100⟩
        ⟨⟨4, 4, 4, 4⟩, false, true⟩ ⟨0, 0, 16, 16⟩ 0).1.hits = 0 ∧
    (resolveHit false ⟨[⟨0, 0, 16, 16⟩], 0, true, 100⟩
        ⟨⟨4, 4, 4, 4⟩, false, true⟩ ⟨0, 0, 16, 16⟩ 0).2.1
      = ⟨⟨4, 4, 4, 4⟩, false, true⟩ ∧
    (resolveHit false ⟨[⟨0, 0, 16, 16⟩], 0, true, 100⟩
        ⟨⟨4, 4, 4, 4⟩, false, true⟩ ⟨0, 0, 16, 16⟩ 0).1.alive = false ∧
    (resolveHit false ⟨[⟨0, 0, 16, 16⟩], 0, true, 100⟩
        ⟨⟨4, 4, 4, 4⟩, false, true⟩ ⟨0, 0, 16, 16⟩ 0).2.2 = 100 ∧
    (bulletSweep false ⟨⟨4, 4, 4, 4⟩, false, true⟩ 0
        [⟨[⟨0, 0, 16, 16⟩], 0, true, 100⟩,
         ⟨[⟨0, 0, 16, 16⟩], 0, true, 50⟩]).1 = ⟨⟨4, 4, 4, 4⟩, false, true⟩ ∧
    (bulletSweep false ⟨⟨4, 4, 4, 4⟩, false, true⟩ 0
        [⟨[⟨0, 0, 16, 16⟩], 0, true, 100⟩,
         ⟨[⟨0, 0, 16, 16⟩], 0, true, 50⟩]).2.1
      = [⟨[⟨0, 0, 16, 16⟩], 0, false, 100⟩,
         ⟨[⟨0, 0, 16, 16⟩], 0, false, 50⟩] := by
  have h1 := (bullet_hit_consumption false ⟨[⟨0, 0, 16, 16⟩], 2, true, 100⟩
      ⟨⟨4, 4, 4, 4⟩, false, true⟩ ⟨0, 0, 16, 16⟩ 0 (by decide)).1 (by decide)
  have h2 := (bullet_hit_consumption false ⟨[⟨0, 0, 16, 16⟩], 0, true, 100⟩
      ⟨⟨4, 4, 4, 4⟩, false, true⟩ ⟨0, 0, 16, 16⟩ 0 (by decide)).2.1 (by decide)
  have h3 := (bullet_hit_consumption false ⟨[⟨0, 0, 16, 16⟩], 0, true, 100⟩
      ⟨⟨4, 4, 4, 4⟩, false, true⟩ ⟨0, 0, 16, 16⟩ 0 (by decide)).2.2 rfl rfl
      [⟨[⟨0, 0, 16, 16⟩], 0, true, 100⟩, ⟨[⟨0, 0, 16, 16⟩], 0, true, 50⟩]
      (by
        intro p hp
        simp only [List.mem_cons, List.not_mem_nil, or_false] at hp
        rcases hp with hp | hp <;> subst hp <;>
          exact ⟨by decide, ⟨0, 0, 16, 16⟩, rfl, by decide⟩)
  refine ⟨h1.1, ?_, h2.2.1 rfl, h2.2.2.1, ?_, h3.1, ?_⟩
  · have := h1.2.1 rfl
    simpa using this
  · simpa using h2.2.2.2
  · decide

/-! ## Level parsing (`sprite_manager.py`, `SpriteManager.load_level` /
`SpriteManager.create_enemy`) -/

/-- A queued enemy as built by `SpriteManager.create_enemy`
(`sprite_manager.py`): the constructor arguments of the
`enemies.Enemy*` classes (type tag, x, y, has_powerup; the classes
themselves are not among the sources — the spec's data model says a
spawn record holds exactly these fields). -/
structure EnemyRec where
  etype : String
  x : ℤ
  y : ℤ
  has_powerup : Bool
deriving Repr, DecidableEq

/-- The temporary variables of `load_level`'s parse loop
(`sprite_manager.py`): `enemy_type`, `x`, `y`, `has_powerup` are plain
Python locals — `none` models a variable that has never been assigned,
whose use raises `UnboundLocalError`.  They are never reset between
records. -/
structure ParserTemps where
  enemy_type : Option String
  x : Option ℤ
  y : Option ℤ
  has_powerup : Option Bool
deriving Repr, DecidableEq

/-- The runtime errors the parse loop can raise: `valueError` for
`list.index` on a missing element and for `int()` on a bad token,
`indexError` for `enemy_data[next_index]` out of range, `nameError` for
use of a never-assigned local (`UnboundLocalError`). -/
inductive LoadError where
  | valueError
  | indexError
  | nameError
deriving Repr, DecidableEq

/-- The enemy type tags handled by the `if/elif` chain of
`SpriteManager.create_enemy` (`sprite_manager.py`). -/
def knownTypes : List String :=
  ["enemy_01", "enemy_02", "enemy_03", "enemy_04", "enemy_05",
   "enemy_06", "enemy_07", "enemy_08", "enemy_09", "enemy_10",
   "enemy_11", "enemy_12", "enemy_13", "enemy_14", "enemy_15", "boss"]

/-- Method `SpriteManager.create_enemy` (`sprite_manager.py`): constructs an
enemy for a known type tag and appends it to `enemy_queue`.  For an
unknown tag no branch of the chain assigns the local `enemy`, and the
trailing `enemy_queue.append(enemy)` raises `UnboundLocalError`. -/
def create_enemy (queue : List EnemyRec) (t : String) (x y : ℤ) (hp : Bool) :
    Except LoadError (List EnemyRec) :=
  if t ∈ knownTypes then .ok (queue ++ [⟨t, x, y, hp⟩]) else .error .nameError

/-- Python `list.index(x)`: the position of the first element equal to
`x`, or `none` where Python raises `ValueError`. -/
def pyIndex (x : String) : List String → Option ℕ
  | [] => none
  | a :: rest => if a = x then some 0 else (pyIndex x rest).map (· + 1)

/-- Decimal digit value of a character, `none` for a non-digit. -/
def pyDigit (c : Char) : Option ℕ :=
  if c.isDigit then some (c.toNat - 48) else none

/-- Accumulate decimal digits left to right. -/
def pyNatAux : ℕ → List Char → Option ℕ
  | acc, [] => some acc
  | acc, c :: cs =>
    match pyDigit c with
    | some d => pyNatAux (acc * 10 + d) cs
    | none => none

/-- Python `int(s)` on a token — an optional minus sign followed by
decimal digits — `none` where Python raises `ValueError`. -/
def pyInt (s : String) : Option ℤ :=
  match s.data with
  | [] => none
  | '-' :: cs => if cs.isEmpty then none else (pyNatAux 0 cs).map (fun n => -(n : ℤ))
  | cs => (pyNatAux 0 cs).map (fun n => (n : ℤ))

/-- The `for element in enemy_data` loop of `SpriteManager.load_level`
(`sprite_manager.py`).  The `for` iterates the list object bound when
the loop starts — the body only ever *rebinds* the name `enemy_data`
(to `[]`, at `end_enemy`), so the iteration sequence is the snapshot
passed as the last argument, while `ed` tracks the current value of the
name `enemy_data` used by `enemy_data.index(element)` and
`enemy_data[next_index]`.  For every element, keyword or not, the loop
first computes `next_index = enemy_data.index(element) + 1`; the
branches for `type`/`x`/`y`/`has_powerup` read the token at
`next_index`, and `end_enemy` calls `create_enemy` on the current temp
variables and rebinds `enemy_data = []`. -/
def processElems (ed : List String) (tp : ParserTemps) (queue : List EnemyRec) :
    List String → Except LoadError (List String × ParserTemps × List EnemyRec)
  | [] => .ok (ed, tp, queue)
  | element :: rest =>
    match pyIndex element ed with
    | none => .error .valueError
    | some i =>
      let next_index := i + 1
      if element = "type" then
        match ed[next_index]? with
        | some v => processElems ed { tp with enemy_type := some v } queue rest
        | none => .error .indexError
      else if element = "x" then
        match ed[next_index]? with
        | some v =>
          match pyInt v with
          | some n => processElems ed { tp with x := some n } queue rest
          | none => .error .valueError
        | none => .error .indexError
      else if element = "y" then
        match ed[next_index]? with
        | some v =>
          match pyInt v with
          | some n => processElems ed { tp with y := some n } queue rest
          | none => .error .valueError
        | none => .error .indexError
      else if element = "has_powerup" then
        match ed[next_index]? with
        | some v =>
          processElems ed { tp with has_powerup := some (v == "True") } queue rest
        | none => .error .indexError
      else if element = "end_enemy" then
        match tp.enemy_type, tp.x, tp.y, tp.has_powerup with
        | some t, some xv, some yv, some hp =>
          match create_enemy queue t xv yv hp with
          | .ok q => processElems [] tp q rest
          | .error err => .error err
        | _, _, _, _ => .error .nameError
      else
        processElems ed tp queue rest

/-- One iteration of the outer `for line in level` loop of
`load_level`: the line's whitespace tokens are appended to `enemy_data`
and the element loop runs over the resulting list. -/
def processLine (ed : List String) (tp : ParserTemps) (queue : List EnemyRec)
    (line : List String) : Except LoadError (List String × ParserTemps × List EnemyRec) :=
  processElems (ed ++ line) tp queue (ed ++ line)

/-- Method `SpriteManager.load_level` (`sprite_manager.py`) on an
already-tokenised file: `lines` is the list of lines, each split into
whitespace-separated tokens (opening the file is outside this model).
Returns the final `enemy_queue`. -/
def load_level : List String → ParserTemps → List EnemyRec → List (List String) →
    Except LoadError (List EnemyRec)
  | _, _, queue, [] => .ok queue
  | ed, tp, queue, line :: rest =>
    match processLine ed tp queue line with
    | .ok (ed', tp', q') => load_level ed' tp' q' rest
    | .error e => .error e

/-- Entry point: `load_level` started on a fresh `SpriteManager`: `enemy_data = []`,
no temp variable assigned, empty `enemy_queue`. -/
def load_level_file (lines : List (List String)) : Except LoadError (List EnemyRec) :=
  load_level [] ⟨none, none, none, none⟩ [] lines

/-- C6 counterexample: a file whose second record is malformed
(missing the `y` key) is *not* silently dropped: `end_enemy` still
calls `create_enemy`, which constructs and enqueues an enemy — reusing
the stale `y = 30` left over from the first record.  And a file whose
*first* record is malformed the same way raises an error
(`UnboundLocalError` on the never-assigned `y`) rather than reporting
nothing. -/
theorem malformed_record_not_dropped_counterexample :
    load_level_file
        [["type", "enemy_01", "x", "50", "y", "30", "has_powerup", "True", "end_enemy"],
         ["type", "enemy_02", "x", "80", "has_powerup", "False", "end_enemy"]]
      = .ok [⟨"enemy_01", 50, 30, true⟩, ⟨"enemy_02", 80, 30, false⟩] ∧
    load_level_file
        [["type", "enemy_02", "x", "80", "has_powerup", "False", "end_enemy"]]
      = .error .nameError := by
  constructor
  · rfl
  · rfl

/-- Any element of the list is found by `pyIndex` at some position. -/
theorem pyIndex_isSome_of_mem {x : String} {l : List String} (h : x ∈ l) :
    ∃ i, pyIndex x l = some i := by
  induction l with
  | nil => cases h
  | cons a rest ih =>
    by_cases hax : a = x
    · exact ⟨0, by simp [pyIndex, hax]⟩
    · simp only [List.mem_cons] at h
      rcases h with h | h
    -- the head case contradicts hax
      · exact absurd h.symm hax
      · obtain ⟨i, hi⟩ := ih h
        exact ⟨i + 1, by simp [pyIndex, hax, hi]⟩

/-- A non-keyword element present in `enemy_data` is passed over by the
parse loop without effect. -/
theorem processElems_skip (ed : List String) (tp : ParserTemps)
    (q : List EnemyRec) (v : String) (rest : List String) (hmem : v ∈ ed)
    (h1 : v ≠ "type") (h2 : v ≠ "x") (h3 : v ≠ "y")
    (h4 : v ≠ "has_powerup") (h5 : v ≠ "end_enemy") :
    processElems ed tp q (v :: rest) = processElems ed tp q rest := by
  obtain ⟨i, hi⟩ := pyIndex_isSome_of_mem hmem
  rw [processElems, hi]
  simp [h1, h2, h3, h4, h5]

/-- The `type` branch of the parse loop. -/
theorem processElems_type (ed : List String) (tp : ParserTemps)
    (q : List EnemyRec) (rest : List String) (i : ℕ) (v : String)
    (hidx : pyIndex "type" ed = some i) (hv : ed[i+1]? = some v) :
    processElems ed tp q ("type" :: rest)
      = processElems ed { tp with enemy_type := some v } q rest := by
  rw [processElems, hidx]
  simp [hv]

/-- The `x` branch of the parse loop. -/
theorem processElems_x (ed : List String) (tp : ParserTemps)
    (q : List EnemyRec) (rest : List String) (i : ℕ) (v : String) (n : ℤ)
    (hidx : pyIndex "x" ed = some i) (hv : ed[i+1]? = some v)
    (hn : pyInt v = some n) :
    processElems ed tp q ("x" :: rest)
      = processElems ed { tp with x := some n } q rest := by
  rw [processElems, hidx]
  simp [hv, hn]

/-- The `y` branch of the parse loop. -/
theorem processElems_y (ed : List String) (tp : ParserTemps)
    (q : List EnemyRec) (rest : List String) (i : ℕ) (v : String) (n : ℤ)
    (hidx : pyIndex "y" ed = some i) (hv : ed[i+1]? = some v)
    (hn : pyInt v = some n) :
    processElems ed tp q ("y" :: rest)
      = processElems ed { tp with y := some n } q rest := by
  rw [processElems, hidx]
  simp [hv, hn]

/-- The `has_powerup` branch of the parse loop. -/
theorem processElems_has_powerup (ed : List String) (tp : ParserTemps)
    (q : List EnemyRec) (rest : List String) (i : ℕ) (v : String)
    (hidx : pyIndex "has_powerup" ed = some i) (hv : ed[i+1]? = some v) :
    processElems ed tp q ("has_powerup" :: rest)
      = processElems ed { tp with has_powerup := some (v == "True") } q rest := by
  rw [processElems, hidx]
  simp [hv]

/-- The `end_enemy` branch of the parse loop on fully assigned temp
variables and a known type tag: one enemy is appended and `enemy_data`
is rebound to `[]`. -/
theorem processElems_end (ed : List String) (q : List EnemyRec)
    (rest : List String) (i : ℕ) (t : String) (xv yv : ℤ) (hp : Bool)
    (hidx : pyIndex "end_enemy" ed = some i) (hknown : t ∈ knownTypes) :
    processElems ed ⟨some t, some xv, some yv, some hp⟩ q ("end_enemy" :: rest)
      = processElems [] ⟨some t, some xv, some yv, some hp⟩
          (q ++ [⟨t, xv, yv, hp⟩]) rest := by
  rw [processElems, hidx]
  simp [create_enemy, hknown]

/-- The `end_enemy` branch when the temp variable `y` has never been
assigned: `create_enemy` is called with an unbound local, raising
`UnboundLocalError`. -/
theorem processElems_end_unbound (ed : List String) (tp : ParserTemps)
    (q : List EnemyRec) (rest : List String) (i : ℕ)
    (hidx : pyIndex "end_enemy" ed = some i) (hy : tp.y = none) :
    processElems ed tp q ("end_enemy" :: rest) = .error .nameError := by
  rw [processElems, hidx]
  obtain ⟨a, b, c, d⟩ := tp
  simp only at hy
  subst hy
  cases a <;> cases b <;> cases d <;> simp

/-- A one-line level record `type t x xs y ys has_powerup bs end_enemy`
as the level files use them. -/
structure LevelRecord where
  t : String
  xs : String
  ys : String
  bs : String
deriving Repr, DecidableEq

/-- The token line of a record. -/
def LevelRecord.line (r : LevelRecord) : List String :=
  ["type", r.t, "x", r.xs, "y", r.ys, "has_powerup", r.bs, "end_enemy"]

/-- Well-formedness of a record line: known type tag, numeric
coordinates, Boolean powerup token. -/
def LevelRecord.wf (r : LevelRecord) : Prop :=
  r.t ∈ knownTypes ∧ (∃ n, pyInt r.xs = some n) ∧ (∃ n, pyInt r.ys = some n) ∧
    (r.bs = "True" ∨ r.bs = "False")

/-- The enemy a well-formed record describes. -/
def LevelRecord.toEnemy (r : LevelRecord) : EnemyRec :=
  ⟨r.t, (pyInt r.xs).getD 0, (pyInt r.ys).getD 0, r.bs == "True"⟩

theorem pyInt_token_ne (key : String) {s : String} {n : ℤ}
    (h : pyInt s = some n) (hkey : pyInt key = none) : s ≠ key := by
  intro hh
  rw [hh, hkey] at h
  exact Option.noConfusion h

/-- Processing one well-formed record line from a freshly reset
`enemy_data` appends exactly one enemy with the record's own values and
leaves `enemy_data` reset. -/
theorem processLine_record (tp : ParserTemps) (q : List EnemyRec)
    (r : LevelRecord) (xn yn : ℤ) (ht : r.t ∈ knownTypes)
    (hxn : pyInt r.xs = some xn) (hyn : pyInt r.ys = some yn)
    (hbs : r.bs = "True" ∨ r.bs = "False") :
    processLine [] tp q r.line
      = .ok ([], ⟨some r.t, some xn, some yn, some (r.bs == "True")⟩,
             q ++ [⟨r.t, xn, yn, r.bs == "True"⟩]) := by
  have hkw : ∀ s ∈ knownTypes, s ≠ "type" ∧ s ≠ "x" ∧ s ≠ "y" ∧
      s ≠ "has_powerup" ∧ s ≠ "end_enemy" := by decide
  obtain ⟨ht1, ht2, ht3, ht4, ht5⟩ := hkw r.t ht
  have hx1 := pyInt_token_ne "type" hxn (by decide)
  have hx2 := pyInt_token_ne "x" hxn (by decide)
  have hx3 := pyInt_token_ne "y" hxn (by decide)
  have hx4 := pyInt_token_ne "has_powerup" hxn (by decide)
  have hx5 := pyInt_token_ne "end_enemy" hxn (by decide)
  have hy1 := pyInt_token_ne "type" hyn (by decide)
  have hy2 := pyInt_token_ne "x" hyn (by decide)
  have hy3 := pyInt_token_ne "y" hyn (by decide)
  have hy4 := pyInt_token_ne "has_powerup" hyn (by decide)
  have hy5 := pyInt_token_ne "end_enemy" hyn (by decide)
  have hb1 : r.bs ≠ "type" := by rcases hbs with hb | hb <;> rw [hb] <;> decide
  have hb2 : r.bs ≠ "x" := by rcases hbs with hb | hb <;> rw [hb] <;> decide
  have hb3 : r.bs ≠ "y" := by rcases hbs with hb | hb <;> rw [hb] <;> decide
  have hb4 : r.bs ≠ "has_powerup" := by
    rcases hbs with hb | hb <;> rw [hb] <;> decide
  have hb5 : r.bs ≠ "end_enemy" := by
    rcases hbs with hb | hb <;> rw [hb] <;> decide
  rw [processLine, List.nil_append, LevelRecord.line]
  rw [processElems_type _ tp q _ 0 r.t (by simp [pyIndex]) rfl]
  rw [processElems_skip _ _ q r.t _ (by simp) ht1 ht2 ht3 ht4 ht5]
  rw [processElems_x _ _ q _ 2 r.xs xn (by simp [pyIndex, ht2]) rfl hxn]
  rw [processElems_skip _ _ q r.xs _ (by simp) hx1 hx2 hx3 hx4 hx5]
  rw [processElems_y _ _ q _ 4 r.ys yn (by simp [pyIndex, ht3, hx3]) rfl hyn]
  rw [processElems_skip _ _ q r.ys _ (by simp) hy1 hy2 hy3 hy4 hy5]
  rw [processElems_has_powerup _ _ q _ 6 r.bs
        (by simp [pyIndex, ht4, hx4, hy4]) rfl]
  rw [processElems_skip _ _ q r.bs _ (by simp) hb1 hb2 hb3 hb4 hb5]
  dsimp only
  rw [processElems_end _ q _ 8 r.t xn yn (r.bs == "True")
        (by simp [pyIndex, ht5, hx5, hy5, hb5]) ht]
  rw [processElems]

/-- A malformed record line: the `y` key and its value are missing. -/
def malformedLine (t xs bs : String) : List String :=
  ["type", t, "x", xs, "has_powerup", bs, "end_enemy"]

/-- Processing a record line that is missing its `y` key: `end_enemy`
still fires.  If the temp `y` holds a value left over from an earlier
record, an enemy with that stale `y` is constructed and enqueued; if `y`
was never assigned, the parse raises `UnboundLocalError`. -/
theorem processLine_missing_y (tp : ParserTemps) (q : List EnemyRec)
    (t xs bs : String) (xn : ℤ) (ht : t ∈ knownTypes)
    (hxn : pyInt xs = some xn) (hbs : bs = "True" ∨ bs = "False") :
    (∀ yv : ℤ, tp.y = some yv →
      processLine [] tp q (malformedLine t xs bs)
        = .ok ([], ⟨some t, some xn, some yv, some (bs == "True")⟩,
               q ++ [⟨t, xn, yv, bs == "True"⟩])) ∧
    (tp.y = none →
      processLine [] tp q (malformedLine t xs bs) = .error .nameError) := by
  have hkw : ∀ s ∈ knownTypes, s ≠ "type" ∧ s ≠ "x" ∧ s ≠ "y" ∧
      s ≠ "has_powerup" ∧ s ≠ "end_enemy" := by decide
  obtain ⟨ht1, ht2, ht3, ht4, ht5⟩ := hkw t ht
  have hx1 := pyInt_token_ne "type" hxn (by decide)
  have hx2 := pyInt_token_ne "x" hxn (by decide)
  have hx3 := pyInt_token_ne "y" hxn (by decide)
  have hx4 := pyInt_token_ne "has_powerup" hxn (by decide)
  have hx5 := pyInt_token_ne "end_enemy" hxn (by decide)
  have hb1 : bs ≠ "type" := by rcases hbs with hb | hb <;> rw [hb] <;> decide
  have hb2 : bs ≠ "x" := by rcases hbs with hb | hb <;> rw [hb] <;> decide
  have hb3 : bs ≠ "y" := by rcases hbs with hb | hb <;> rw [hb] <;> decide
  have hb4 : bs ≠ "has_powerup" := by
    rcases hbs with hb | hb <;> rw [hb] <;> decide
  have hb5 : bs ≠ "end_enemy" := by
    rcases hbs with hb | hb <;> rw [hb] <;> decide
  have hcommon : processLine [] tp q (malformedLine t xs bs)
      = processElems ["type", t, "x", xs, "has_powerup", bs, "end_enemy"]
          ⟨some t, some xn, tp.y, some (bs == "True")⟩ q ["end_enemy"] := by
    rw [processLine, List.nil_append, malformedLine]
    rw [processElems_type _ tp q _ 0 t (by simp [pyIndex]) rfl]
    rw [processElems_skip _ _ q t _ (by simp) ht1 ht2 ht3 ht4 ht5]
    rw [processElems_x _ _ q _ 2 xs xn (by simp [pyIndex, ht2]) rfl hxn]
    rw [processElems_skip _ _ q xs _ (by simp) hx1 hx2 hx3 hx4 hx5]
    rw [processElems_has_powerup _ _ q _ 4 bs
          (by simp [pyIndex, ht4, hx4]) rfl]
    rw [processElems_skip _ _ q bs _ (by simp) hb1 hb2 hb3 hb4 hb5]
  constructor
  · intro yv hyv
    rw [hcommon]
    rw [show (⟨some t, some xn, tp.y, some (bs == "True")⟩ : ParserTemps)
        = ⟨some t, some xn, some yv, some (bs == "True")⟩ from by rw [hyv]]
    rw [processElems_end _ q _ 6 t xn yv (bs == "True")
          (by simp [pyIndex, ht5, hx5, hb5]) ht]
    rw [processElems]
  · intro hy
    rw [hcommon]
    exact processElems_end_unbound _ _ q _ 6
      (by simp [pyIndex, ht5, hx5, hb5]) (by simpa using hy)

/-- A file of well-formed one-record lines enqueues exactly one enemy
per record, in order, each carrying its own record's values. -/
theorem load_level_wf_lines (rs : List LevelRecord)
    (h : ∀ r ∈ rs, r.wf) :
    ∀ (tp : ParserTemps) (q : List EnemyRec),
      load_level [] tp q (rs.map LevelRecord.line)
        = .ok (q ++ rs.map LevelRecord.toEnemy) := by
  induction rs with
  | nil => intro tp q; simp [load_level]
  | cons r rest ih =>
    intro tp q
    obtain ⟨ht, ⟨xn, hxn⟩, ⟨yn, hyn⟩, hbs⟩ := h r (List.mem_cons_self _ _)
    have henemy : (⟨r.t, xn, yn, r.bs == "True"⟩ : EnemyRec) = r.toEnemy := by
      rw [LevelRecord.toEnemy, hxn, hyn]
      rfl
    rw [List.map_cons, load_level,
        processLine_record tp q r xn yn ht hxn hyn hbs]
    dsimp only
    rw [ih (fun r' hr' => h r' (List.mem_cons_of_mem _ hr'))]
    rw [henemy, List.append_assoc]
    rfl

/-- C6 (amended): a record missing a required key before
`end_enemy` is *not* silently dropped: `end_enemy` unconditionally
calls `create_enemy`, so (i) a file of well-formed one-record lines
enqueues exactly one enemy per record with that record's `type`, `x`,
`y` and `has_powerup` values; (ii) a record missing its `y` key that
follows a well-formed record still constructs and enqueues an enemy,
reusing the previous record's stale `y` value; (iii) a file whose first
record is missing its `y` key makes `load_level` raise an unbound-local
error rather than reporting nothing. -/
theorem load_level_malformed_not_dropped
    (rs : List LevelRecord) (h : ∀ r ∈ rs, r.wf)
    (r1 : LevelRecord) (h1 : r1.wf)
    (t xs bs : String) (xn : ℤ) (ht : t ∈ knownTypes)
    (hxn : pyInt xs = some xn) (hbs : bs = "True" ∨ bs = "False") :
    load_level_file (rs.map LevelRecord.line) = .ok (rs.map LevelRecord.toEnemy) ∧
    load_level_file [r1.line, malformedLine t xs bs]
      = .ok [r1.toEnemy, ⟨t, xn, (pyInt r1.ys).getD 0, bs == "True"⟩] ∧
    load_level_file [malformedLine t xs bs] = .error .nameError := by
  obtain ⟨ht1, ⟨xn1, hxn1⟩, ⟨yn1, hyn1⟩, hbs1⟩ := h1
  refine ⟨?_, ?_, ?_⟩
  · have hmain := load_level_wf_lines rs h ⟨none, none, none, none⟩ []
    rw [load_level_file, hmain, List.nil_append]
  · rw [load_level_file, load_level,
        processLine_record _ _ r1 xn1 yn1 ht1 hxn1 hyn1 hbs1]
    dsimp only
    rw [load_level,
        (processLine_missing_y _ _ t xs bs xn ht hxn hbs).1 yn1 rfl]
    dsimp only
    rw [load_level, hyn1]
    have henemy : (⟨r1.t, xn1, yn1, r1.bs == "True"⟩ : EnemyRec) = r1.toEnemy := by
      rw [LevelRecord.toEnemy, hxn1, hyn1]
      rfl
    rw [henemy]
    rfl
  · rw [load_level_file, load_level,
        (processLine_missing_y _ _ t xs bs xn ht hxn hbs).2 rfl]

/-- Witness for `load_level_malformed_not_dropped` on a concrete
well-formed record, a trailing record missing `y` (stale reuse), and a
lone record missing `y` (error). -/
theorem load_level_malformed_not_dropped_witness :
    load_level_file
        [["type", "enemy_03", "x", "60", "y", "40", "has_powerup", "False", "end_enemy"]]
      = .ok [⟨"enemy_03", 60, 40, false⟩] ∧
    load_level_file
        [["type", "enemy_03", "x", "60", "y", "40", "has_powerup", "False", "end_enemy"],
         ["type", "boss", "x", "90", "has_powerup", "True", "end_enemy"]]
      = .ok [⟨"enemy_03", 60, 40, false⟩, ⟨"boss", 90, 40, true⟩] ∧
    load_level_file [["type", "boss", "x", "90", "has_powerup", "True", "end_enemy"]]
      = .error .nameError := by
  have h := load_level_malformed_not_dropped
      [⟨"enemy_03", "60", "40", "False"⟩]
      (by
        intro r hr
        simp only [List.mem_cons, List.not_mem_nil, or_false] at hr
        subst hr
        exact ⟨by decide, ⟨60, rfl⟩, ⟨40, rfl⟩, Or.inr rfl⟩)
      ⟨"enemy_03", "60", "40", "False"⟩
      ⟨by decide, ⟨60, rfl⟩, ⟨40, rfl⟩, Or.inr rfl⟩
      "boss" "90" "True" 90 (by decide) rfl (Or.inl rfl)
  exact ⟨h.1, h.2.1, h.2.2⟩

end Protostriker
